import Mathlib

/-!
Shallow embedding of the daily_spanish_verb core: the adaptive word selector
(src/utils/word_selector.py), the state store (src/utils/data_manager.py), the
feedback interpreter (src/utils/feedback_processor.py) and the send-cycle
orchestration (src/main.py).  Python floats are modelled as rationals, the
persisted history.json document as an explicit `FileState`, raised exceptions
as `Except PyError`, and the two draws of the global random source
(`random.random()` and the index drawn by `random.choice`) as explicit
arguments `r : ℚ` and `j : ℕ`.
-/

/-- A vocabulary item as the core sees it: a unique integer id plus an optional
difficulty score (items may lack the `difficulty` key; `word.get('difficulty', 2.0)`
then supplies 2.0).  Display fields are opaque to the core and omitted. -/
structure Word where
  id : Nat
  difficulty : Option ℚ
deriving DecidableEq

/-- The value `word.get('difficulty', 2.0)` used in filter_words_by_difficulty. -/
def word_difficulty (w : Word) : ℚ :=
  w.difficulty.getD 2

/-- One entry of history.json's `sent_emails` log (data_manager.update_history). -/
structure SentEmail where
  date : String
  verb_id : Nat
  adjective_id : Nat
  success : Bool
  difficulty_level : ℚ
deriving DecidableEq

/-- One entry of history.json's `difficulty_adjustments` log
(data_manager.update_difficulty_preference). -/
structure Adjustment where
  date : String
  feedback : String
  old_level : ℚ
  new_level : ℚ
deriving DecidableEq

/-- The persisted history.json document.  The Python code reads some keys with
`.get(key, default)`; every document the program itself writes carries all of
these keys, so the model gives the document all fields, and models absence of
the whole file separately via `FileState.absent`. -/
structure History where
  sent_emails : List SentEmail
  used_verbs : List Nat
  used_adjectives : List Nat
  total_emails_sent : Nat
  current_difficulty_level : ℚ
  difficulty_adjustments : List Adjustment
  last_feedback_check : Option String
deriving DecidableEq

/-- Python exceptions the core raises or catches. -/
inductive PyError where
  | fileNotFound
  | jsonDecode
  | valueError (msg : String)
deriving DecidableEq

/-- State of the history.json file on disk: missing, present but unparsable,
or a parsed document. -/
inductive FileState where
  | absent
  | corrupt
  | doc (h : History)
deriving DecidableEq

instance exceptDecidableEq {ε α : Type} [DecidableEq ε] [DecidableEq α] :
    DecidableEq (Except ε α) := fun x y =>
  match x, y with
  | .error e, .error f => decidable_of_iff (e = f) (by simp)
  | .error _, .ok _ => .isFalse (fun c => Except.noConfusion c)
  | .ok _, .error _ => .isFalse (fun c => Except.noConfusion c)
  | .ok a, .ok b => decidable_of_iff (a = b) (by simp)

/-- data_manager.read_json applied to the history file: raises
FileNotFoundError if the file does not exist and json.JSONDecodeError if it
holds invalid JSON. -/
def read_json_hist : FileState → Except PyError History
  | .absent => .error .fileNotFound
  | .corrupt => .error .jsonDecode
  | .doc h => .ok h

/-- A history document with no logs, no used ids and difficulty `d`. -/
def mkHistory (d : ℚ) : History :=
  ⟨[], [], [], 0, d, [], none⟩

/-- The default history initialized by update_history when the file is absent
(data_manager.py lines 85-95): empty logs, empty used sets, difficulty 2.0. -/
def defaultHistory : History :=
  mkHistory 2

/-- word_selector.filter_words_by_difficulty: keep words whose difficulty
(default 2.0) lies within `tolerance` of the target, with the window clipped
to [1.0, 5.0].  The Python default tolerance is 0.7; every caller in the
selector passes 0.5 explicitly. -/
def filter_words_by_difficulty (words : List Word) (target_difficulty tolerance : ℚ) :
    List Word :=
  let min_diff := max 1 (target_difficulty - tolerance)
  let max_diff := min 5 (target_difficulty + tolerance)
  words.filter fun word =>
    decide (min_diff ≤ word_difficulty word) && decide (word_difficulty word ≤ max_diff)

/-- The local `current_range` of select_word_by_difficulty_distribution. -/
def current_range (words : List Word) (current_difficulty : ℚ) : List Word :=
  filter_words_by_difficulty words current_difficulty (1/2)

/-- The local `higher_range` of select_word_by_difficulty_distribution. -/
def higher_range (words : List Word) (current_difficulty : ℚ) : List Word :=
  filter_words_by_difficulty words (min 5 (current_difficulty + 1)) (1/2)

/-- The local `lower_range` of select_word_by_difficulty_distribution. -/
def lower_range (words : List Word) (current_difficulty : ℚ) : List Word :=
  filter_words_by_difficulty words (max 1 (current_difficulty - 1)) (1/2)

/-- word_selector.get_unused_words: drop words whose id is in `used_ids`. -/
def get_unused_words (all_words : List Word) (used_ids : List Nat) : List Word :=
  all_words.filter fun word => !(used_ids.contains word.id)

/-- The pool from which select_word_by_difficulty_distribution draws, as a
function of the value `r` returned by `random.random()`: the if/elif chain of
word_selector.py lines 104-115.  A Python `and band`-test is the non-emptiness
of that band. -/
def selectPool (words : List Word) (current_difficulty r : ℚ) : List Word :=
  if r < 7/10 ∧ current_range words current_difficulty ≠ [] then
    current_range words current_difficulty
  else if r < 9/10 ∧ higher_range words current_difficulty ≠ [] then
    higher_range words current_difficulty
  else if r < 1 ∧ lower_range words current_difficulty ≠ [] then
    lower_range words current_difficulty
  else
    words

/-- word_selector.select_word_by_difficulty_distribution: raises ValueError on
an empty word list, otherwise draws uniformly (`random.choice`, modelled by the
index `j` reduced modulo the pool size) from the pool picked by `r`. -/
def select_word_by_difficulty_distribution (words : List Word)
    (current_difficulty r : ℚ) (j : Nat) : Except PyError Word :=
  if words.isEmpty then
    .error (.valueError "No words available to select from")
  else
    let pool := selectPool words current_difficulty r
    .ok (pool.getD (j % pool.length) ⟨0, none⟩)

/-- The history read of word_selector.select_daily_words lines 139-147:
`read_json` guarded by `except FileNotFoundError` only, substituting empty
used lists and difficulty 2.0; any other read failure propagates. -/
def load_history_for_selection (file : FileState) :
    Except PyError (List Nat × List Nat × ℚ) :=
  match read_json_hist file with
  | .ok history =>
      .ok (history.used_verbs, history.used_adjectives, history.current_difficulty_level)
  | .error .fileNotFound => .ok ([], [], 2)
  | .error e => .error e

/-- data_manager.reset_used_words: re-reads the history file (no
FileNotFoundError guard), clears the requested used list and writes the file
back; the returned document is the newly persisted file content. -/
def reset_used_words (file : FileState) (word_type : String) :
    Except PyError History :=
  match read_json_hist file with
  | .error e => .error e
  | .ok history =>
      if word_type = "verbs" then .ok { history with used_verbs := [] }
      else if word_type = "adjectives" then .ok { history with used_adjectives := [] }
      else .error (.valueError "Invalid word_type")

/-- The reset check of word_selector.select_daily_words lines 153-167 for one
catalog: when every item is used, persist a cleared used list through
reset_used_words and continue with the full catalog and a raised reset flag,
otherwise keep the unused items and leave the file alone. -/
def resolve_unused (file : FileState) (all_words unused : List Word)
    (word_type : String) : Except PyError (List Word × Bool × FileState) :=
  if unused.isEmpty then
    match reset_used_words file word_type with
    | .error e => .error e
    | .ok h => .ok (all_words, true, FileState.doc h)
  else .ok (unused, false, file)

/-- word_selector.select_daily_words given already-loaded catalogs: reads the
history (defaults only on a missing file), computes unused words, resets an
exhausted catalog by persisting a cleared used list, then draws one verb and
one adjective through select_word_by_difficulty_distribution.  The random
draws of the two calls are `(rv, jv)` and `(ra, ja)`; the returned `FileState`
is the file content after any resets were written. -/
def select_daily_words (all_verbs all_adjectives : List Word) (file : FileState)
    (rv ra : ℚ) (jv ja : Nat) :
    Except PyError (Word × Word × Bool × Bool × FileState) :=
  match load_history_for_selection file with
  | .error e => .error e
  | .ok (used_verbs, used_adjectives, current_difficulty) =>
    match resolve_unused file all_verbs (get_unused_words all_verbs used_verbs) "verbs" with
    | .error e => .error e
    | .ok (unused_verbs, verb_reset, file₁) =>
      match resolve_unused file₁ all_adjectives
          (get_unused_words all_adjectives used_adjectives) "adjectives" with
      | .error e => .error e
      | .ok (unused_adjectives, adjective_reset, file₂) =>
        match select_word_by_difficulty_distribution unused_verbs current_difficulty rv jv with
        | .error e => .error e
        | .ok selected_verb =>
          match select_word_by_difficulty_distribution unused_adjectives current_difficulty ra ja with
          | .error e => .error e
          | .ok selected_adjective =>
            .ok (selected_verb, selected_adjective, verb_reset, adjective_reset, file₂)

/-- data_manager.update_history: read the history (defaulting only when the
file is absent), append a send-log entry, and on success add unseen ids to the
used lists and bump the success counter; the result is the document written
back to the file. -/
def update_history (file : FileState) (verb_id adjective_id : Nat)
    (success : Bool) (difficulty_level : ℚ) (date : String) :
    Except PyError FileState :=
  match (match read_json_hist file with
         | .ok h => .ok h
         | .error .fileNotFound => .ok defaultHistory
         | .error e => .error e : Except PyError History) with
  | .error e => .error e
  | .ok history =>
    let history := { history with
      sent_emails := history.sent_emails ++
        [⟨date, verb_id, adjective_id, success, difficulty_level⟩] }
    let history := if success then
        { history with
          used_verbs := if verb_id ∈ history.used_verbs then history.used_verbs
            else history.used_verbs ++ [verb_id],
          used_adjectives := if adjective_id ∈ history.used_adjectives then history.used_adjectives
            else history.used_adjectives ++ [adjective_id],
          total_emails_sent := history.total_emails_sent + 1 }
      else history
    .ok (FileState.doc history)

/-- data_manager.update_difficulty_preference: read the history (no guard, so
a missing or corrupt file raises), clamp `old + adjustment` into [1.0, 5.0],
log the adjustment, stamp the feedback check and persist; returns the new file
content and the new level.  `date` and `now` stand for the two
`datetime.now()` strings. -/
def update_difficulty_preference (file : FileState) (feedback : String)
    (adjustment : ℚ) (date now : String) : Except PyError (FileState × ℚ) :=
  match read_json_hist file with
  | .error e => .error e
  | .ok history =>
    let old_level := history.current_difficulty_level
    let new_level := max 1 (min 5 (old_level + adjustment))
    let history := { history with
      difficulty_adjustments := history.difficulty_adjustments ++
        [⟨date, feedback, old_level, new_level⟩],
      current_difficulty_level := new_level,
      last_feedback_check := some now }
    .ok (FileState.doc history, new_level)

/-- data_manager.get_difficulty_level: the current difficulty, 2.0 when the
file is absent; a corrupt file still raises. -/
def get_difficulty_level (file : FileState) : Except PyError ℚ :=
  match read_json_hist file with
  | .ok history => .ok history.current_difficulty_level
  | .error .fileNotFound => .ok 2
  | .error e => .error e

/-- A word character in the sense of the regex `\b` anchor (ASCII scope):
letters, digits and underscore. -/
def isWordChar (c : Char) : Bool :=
  c.isAlphanum || c == '_'

/-- Whether position `i` of `t` holds a word character (positions past the end
count as non-word, as for a string edge in a regex). -/
def wordCharAt (t : List Char) (i : Nat) : Bool :=
  match t.get? i with
  | some c => isWordChar c
  | none => false

/-- The regex `\b` word-boundary test at position `i` of `t`: the word-ness of
the characters on the two sides of the position differs. -/
def boundaryAt (t : List Char) (i : Nat) : Bool :=
  (if i = 0 then false else wordCharAt t (i - 1)) != wordCharAt t i

/-- The regex `\b<keyword>\b` matched at position `i` of `t`. -/
def matchesKeywordAt (k t : List Char) (i : Nat) : Bool :=
  boundaryAt t i && ((t.drop i).take k.length == k) && boundaryAt t (i + k.length)

/-- `re.search` of the pattern `\b + re.escape(keyword) + \b` over text `t`:
true if the keyword matches at some position with word boundaries on both
sides. -/
def reSearch (k t : List Char) : Bool :=
  (List.range (t.length + 1)).any fun i => matchesKeywordAt k t i

/-- feedback_processor.FEEDBACK_KEYWORDS in its exact insertion order, mapping
each keyword to its signed difficulty adjustment. -/
def FEEDBACK_KEYWORDS : List (String × ℚ) :=
  [("easy", 1/2), ("too easy", 1/2), ("easier", 1/2), ("simple", 1/2),
   ("hard", -(1/2)), ("too hard", -(1/2)), ("harder", -(1/2)), ("difficult", -(1/2)),
   ("perfect", 0), ("good", 0), ("just right", 0)]

/-- The iteration order of `FEEDBACK_KEYWORDS.keys()`. -/
def FEEDBACK_KEYS : List String :=
  FEEDBACK_KEYWORDS.map Prod.fst

/-- feedback_processor.parse_feedback_from_text: lowercase the text, scan the
keyword list in its defined order, and return the first keyword whose
`\b`-bounded pattern matches. -/
def parse_feedback_from_text (text : String) : Option String :=
  let text_lower := text.toList.map Char.toLower
  FEEDBACK_KEYS.find? fun keyword => reSearch keyword.toList text_lower

/-- The body of feedback_processor.check_for_feedback's try-block from the
point the mail collaborator has produced (or failed to produce) a reply body:
no body or no keyword yields a not-found triple; a matched keyword looks up
its adjustment (a missing key would raise KeyError) and persists the new
difficulty via update_difficulty_preference. -/
def check_for_feedback_core (file : FileState) (body : Option String)
    (date now : String) : Except PyError (Bool × Option String × Option ℚ × FileState) :=
  match body with
  | none => .ok (false, none, none, file)
  | some b =>
    match parse_feedback_from_text b with
    | none => .ok (false, none, none, file)
    | some feedback =>
      match FEEDBACK_KEYWORDS.lookup feedback with
      | none => .error (.valueError "KeyError")
      | some adjustment =>
        match update_difficulty_preference file feedback adjustment date now with
        | .error e => .error e
        | .ok (file', new_level) => .ok (true, some feedback, some new_level, file')

/-- feedback_processor.check_for_feedback: the catch-all handlers of lines
164-171 turn any exception raised inside the cycle into the not-found triple
`(False, None, None)`, leaving the file as it was. -/
def check_for_feedback (file : FileState) (body : Option String)
    (date now : String) : Bool × Option String × Option ℚ × FileState :=
  match check_for_feedback_core file body date now with
  | .ok r => r
  | .error _ => (false, none, none, file)

/-- The send-cycle of main.main (src/main.py lines 96-164): select the daily
words, read the current difficulty, hand off to the delivery collaborator
(whose verdict is the input `delivery_success`), and only on success record
the send via update_history.  Returns the final file state and the exit
code. -/
def main_send_cycle (all_verbs all_adjectives : List Word) (file : FileState)
    (rv ra : ℚ) (jv ja : Nat) (delivery_success : Bool) (date : String) :
    Except PyError (FileState × Nat) :=
  match select_daily_words all_verbs all_adjectives file rv ra jv ja with
  | .error e => .error e
  | .ok (verb, adjective, _verb_reset, _adjective_reset, file₁) =>
    match get_difficulty_level file₁ with
    | .error e => .error e
    | .ok current_difficulty =>
      if delivery_success then
        match update_history file₁ verb.id adjective.id true current_difficulty date with
        | .error e => .error e
        | .ok file₂ => .ok (file₂, 0)
      else .ok (file₁, 1)

/-- An "easy" feedback (+0.5) followed by a "hard" feedback (−0.5) applied to
a fresh history at difficulty `d`, returning the final persisted difficulty. -/
def easyThenHard (d : ℚ) : Except PyError ℚ :=
  match update_difficulty_preference (.doc (mkHistory d)) "easy" (1/2) "day1" "t1" with
  | .error e => .error e
  | .ok (file₁, _) =>
    match update_difficulty_preference file₁ "hard" (-(1/2)) "day2" "t2" with
    | .error e => .error e
    | .ok (_, level₂) => .ok level₂

/-- Whether an Except value is an error (a raised exception). -/
def exceptIsError {α : Type} : Except PyError α → Bool
  | .error _ => true
  | .ok _ => false

/-- The verb used-set carried by the history file at entry of a run (empty
when there is no parsed document). -/
def used_at_entry_verbs : FileState → List Nat
  | .doc h => h.used_verbs
  | _ => []

/-- The adjective used-set carried by the history file at entry of a run. -/
def used_at_entry_adjectives : FileState → List Nat
  | .doc h => h.used_adjectives
  | _ => []

/-- The three-item catalog of the end-to-end scenario: ids 1, 2, 3, all at
difficulty 2.0. -/
def threeWords : List Word :=
  [⟨1, some 2⟩, ⟨2, some 2⟩, ⟨3, some 2⟩]

/-- The scenario history: items 1 and 2 used in both catalogs, difficulty 2.0. -/
def usedTwoHistory : History :=
  { mkHistory 2 with used_verbs := [1, 2], used_adjectives := [1, 2] }

/-- The document persisted by a successful update_history call (a junk
default when the call raised, which on a parsed input document it never
does). -/
def history_after_update (file : FileState) (verb_id adjective_id : Nat)
    (success : Bool) (difficulty_level : ℚ) (date : String) : History :=
  match update_history file verb_id adjective_id success difficulty_level date with
  | .ok (.doc h') => h'
  | _ => defaultHistory

/-- Membership in a difficulty filter implies membership in the input list. -/
theorem mem_of_mem_filter_words {w : Word} {words : List Word} {t tol : ℚ}
    (h : w ∈ filter_words_by_difficulty words t tol) : w ∈ words := by
  unfold filter_words_by_difficulty at h
  exact List.mem_of_mem_filter h

/-- Every word drawn from the selection pool comes from the input list. -/
theorem selectPool_subset {words : List Word} {d r : ℚ} {w : Word}
    (h : w ∈ selectPool words d r) : w ∈ words := by
  unfold selectPool at h
  split_ifs at h
  · exact mem_of_mem_filter_words (by simpa [current_range] using h)
  · exact mem_of_mem_filter_words (by simpa [higher_range] using h)
  · exact mem_of_mem_filter_words (by simpa [lower_range] using h)
  · exact h

/-- The selection pool of a non-empty word list is non-empty. -/
theorem selectPool_ne_nil {words : List Word} (d r : ℚ) (hw : words ≠ []) :
    selectPool words d r ≠ [] := by
  unfold selectPool
  split_ifs with h1 h2 h3
  · exact h1.2
  · exact h2.2
  · exact h3.2
  · exact hw

/-- A successfully selected word is a member of the word list it was drawn
from. -/
theorem select_word_mem {words : List Word} {d r : ℚ} {j : Nat} {w : Word}
    (h : select_word_by_difficulty_distribution words d r j = .ok w) : w ∈ words := by
  unfold select_word_by_difficulty_distribution at h
  by_cases he : words.isEmpty
  · rw [if_pos he] at h
    exact absurd h (by simp)
  · rw [if_neg he] at h
    have hnil : words ≠ [] := by simpa [List.isEmpty_iff] using he
    have hpool := selectPool_ne_nil d r hnil
    have hlt : j % (selectPool words d r).length < (selectPool words d r).length :=
      Nat.mod_lt _ (List.length_pos.mpr hpool)
    have hw : (selectPool words d r).getD (j % (selectPool words d r).length) ⟨0, none⟩ = w := by
      injection h
    apply selectPool_subset (d := d) (r := r)
    rw [← hw, List.getD_eq_getElem?_getD, List.getElem?_eq_getElem hlt]
    exact List.getElem_mem hlt

/-- A word surviving get_unused_words is in the catalog and has an unused id. -/
theorem mem_get_unused {w : Word} {all_words : List Word} {used : List Nat}
    (h : w ∈ get_unused_words all_words used) : w ∈ all_words ∧ w.id ∉ used := by
  unfold get_unused_words at h
  rw [List.mem_filter] at h
  refine ⟨h.1, ?_⟩
  simpa using h.2

/-- The used lists produced by a successful history read are the file's used
lists at entry. -/
theorem load_history_used {file : FileState} {uv ua : List Nat} {cd : ℚ}
    (h : load_history_for_selection file = .ok (uv, ua, cd)) :
    uv = used_at_entry_verbs file ∧ ua = used_at_entry_adjectives file := by
  cases file <;>
    simp_all [load_history_for_selection, read_json_hist, used_at_entry_verbs,
      used_at_entry_adjectives]

/-- When the reset flag comes back false, the pool is the unused list and the
file was not touched. -/
theorem resolve_unused_no_reset {file f' : FileState} {aw u u' : List Word} {t : String}
    (h : resolve_unused file aw u t = .ok (u', false, f')) : u' = u ∧ f' = file := by
  unfold resolve_unused at h
  by_cases he : u.isEmpty
  · rw [if_pos he] at h
    cases hr : reset_used_words file t <;> rw [hr] at h <;> simp_all
  · rw [if_neg he] at h
    simp_all

/-- One reset step never leaves a corrupt file behind. -/
theorem resolve_unused_not_corrupt {file f' : FileState} {aw u u' : List Word}
    {t : String} {flag : Bool} (hfile : file ≠ .corrupt)
    (h : resolve_unused file aw u t = .ok (u', flag, f')) : f' ≠ .corrupt := by
  unfold resolve_unused at h
  by_cases he : u.isEmpty
  · rw [if_pos he] at h
    cases hr : reset_used_words file t <;> rw [hr] at h
    · simp at h
    · obtain ⟨-, -, h3⟩ : _ ∧ _ ∧ _ = f' := by simpa using h
      rw [← h3]
      simp
  · rw [if_neg he] at h
    obtain ⟨-, -, h3⟩ : _ ∧ _ ∧ file = f' := by simpa using h
    rw [← h3]
    exact hfile

/-- A successful history read means the file was not corrupt. -/
theorem load_ok_not_corrupt {file : FileState} {t : List Nat × List Nat × ℚ}
    (h : load_history_for_selection file = .ok t) : file ≠ .corrupt := by
  intro hc
  subst hc
  simp [load_history_for_selection, read_json_hist] at h

/-- get_difficulty_level succeeds on any non-corrupt file. -/
theorem get_difficulty_level_ok {file : FileState} (h : file ≠ .corrupt) :
    ∃ q, get_difficulty_level file = .ok q := by
  cases file with
  | corrupt => exact absurd rfl h
  | absent => exact ⟨2, rfl⟩
  | doc hh => exact ⟨hh.current_difficulty_level, rfl⟩

/-- Decomposition of a successful select_daily_words run into its history
read, its two reset checks and its two draws. -/
theorem select_daily_words_inversion {v a : List Word} {file : FileState} {rv ra : ℚ}
    {jv ja : Nat} {vb ad : Word} {vr ar : Bool} {f₁ : FileState}
    (hsel : select_daily_words v a file rv ra jv ja = .ok (vb, ad, vr, ar, f₁)) :
    ∃ uv ua cd unv una fa,
      load_history_for_selection file = .ok (uv, ua, cd) ∧
      resolve_unused file v (get_unused_words v uv) "verbs" = .ok (unv, vr, fa) ∧
      resolve_unused fa a (get_unused_words a ua) "adjectives" = .ok (una, ar, f₁) ∧
      select_word_by_difficulty_distribution unv cd rv jv = .ok vb ∧
      select_word_by_difficulty_distribution una cd ra ja = .ok ad := by
  unfold select_daily_words at hsel
  cases hload : load_history_for_selection file with
  | error e => rw [hload] at hsel; exact absurd hsel (by simp)
  | ok t =>
    obtain ⟨uv, ua, cd⟩ := t
    rw [hload] at hsel
    dsimp only at hsel
    cases hrv : resolve_unused file v (get_unused_words v uv) "verbs" with
    | error e => rw [hrv] at hsel; exact absurd hsel (by simp)
    | ok tv =>
      obtain ⟨unv, vflag, fa⟩ := tv
      rw [hrv] at hsel
      dsimp only at hsel
      cases hra : resolve_unused fa a (get_unused_words a ua) "adjectives" with
      | error e => rw [hra] at hsel; exact absurd hsel (by simp)
      | ok ta =>
        obtain ⟨una, aflag, fb⟩ := ta
        rw [hra] at hsel
        dsimp only at hsel
        cases hsv : select_word_by_difficulty_distribution unv cd rv jv with
        | error e => rw [hsv] at hsel; exact absurd hsel (by simp)
        | ok w1 =>
          rw [hsv] at hsel
          dsimp only at hsel
          cases hsa : select_word_by_difficulty_distribution una cd ra ja with
          | error e => rw [hsa] at hsel; exact absurd hsel (by simp)
          | ok w2 =>
            rw [hsa] at hsel
            have h5 : w1 = vb ∧ w2 = ad ∧ vflag = vr ∧ aflag = ar ∧ fb = f₁ := by
              simpa using hsel
            obtain ⟨e1, e2, e3, e4, e5⟩ := h5
            subst e1; subst e2; subst e3; subst e4; subst e5
            exact ⟨uv, ua, cd, unv, una, fa, rfl, hrv, hra, hsv, hsa⟩

/-- When the respective reset flag is false, a selected item's id is not in
the corresponding used-set at entry. -/
theorem select_daily_avoids_used {v a : List Word} {file : FileState} {rv ra : ℚ}
    {jv ja : Nat} {vb ad : Word} {vr ar : Bool} {f₁ : FileState}
    (hsel : select_daily_words v a file rv ra jv ja = .ok (vb, ad, vr, ar, f₁)) :
    (vr = false → vb.id ∉ used_at_entry_verbs file) ∧
    (ar = false → ad.id ∉ used_at_entry_adjectives file) := by
  obtain ⟨uv, ua, cd, unv, una, fa, hload, hrv, hra, hsv, hsa⟩ :=
    select_daily_words_inversion hsel
  obtain ⟨huv, hua⟩ := load_history_used hload
  constructor
  · intro hvr
    rw [hvr] at hrv
    obtain ⟨hu, _⟩ := resolve_unused_no_reset hrv
    have := (mem_get_unused (hu ▸ select_word_mem hsv)).2
    rwa [huv] at this
  · intro har
    rw [har] at hra
    obtain ⟨hu, _⟩ := resolve_unused_no_reset hra
    have := (mem_get_unused (hu ▸ select_word_mem hsa)).2
    rwa [hua] at this

/-- When neither catalog was reset, selection leaves the history file exactly
as it was. -/
theorem select_daily_no_reset_no_write {v a : List Word} {file : FileState} {rv ra : ℚ}
    {jv ja : Nat} {vb ad : Word} {f₁ : FileState}
    (hsel : select_daily_words v a file rv ra jv ja = .ok (vb, ad, false, false, f₁)) :
    f₁ = file := by
  obtain ⟨uv, ua, cd, unv, una, fa, hload, hrv, hra, hsv, hsa⟩ :=
    select_daily_words_inversion hsel
  obtain ⟨_, h1⟩ := resolve_unused_no_reset hrv
  obtain ⟨_, h2⟩ := resolve_unused_no_reset hra
  rw [h2, h1]

/-- The file produced by a successful selection is never corrupt. -/
theorem select_daily_not_corrupt {v a : List Word} {file : FileState} {rv ra : ℚ}
    {jv ja : Nat} {vb ad : Word} {vr ar : Bool} {f₁ : FileState}
    (hsel : select_daily_words v a file rv ra jv ja = .ok (vb, ad, vr, ar, f₁)) :
    f₁ ≠ .corrupt := by
  obtain ⟨uv, ua, cd, unv, una, fa, hload, hrv, hra, hsv, hsa⟩ :=
    select_daily_words_inversion hsel
  exact resolve_unused_not_corrupt
    (resolve_unused_not_corrupt (load_ok_not_corrupt hload) hrv) hra

/-- On delivery failure the orchestrator skips update_history entirely: the
run exits 1 with the file exactly as selection left it. -/
theorem main_cycle_failure_any {v a : List Word} {file : FileState} {rv ra : ℚ}
    {jv ja : Nat} {date : String} {vb ad : Word} {vr ar : Bool} {f₁ : FileState}
    (hsel : select_daily_words v a file rv ra jv ja = .ok (vb, ad, vr, ar, f₁)) :
    main_send_cycle v a file rv ra jv ja false date = .ok (f₁, 1) := by
  obtain ⟨q, hq⟩ := get_difficulty_level_ok (select_daily_not_corrupt hsel)
  unfold main_send_cycle
  rw [hsel]
  dsimp only
  rw [hq]
  simp

/-- The selection pool over the singleton catalog of the scenario is that
singleton for every random draw. -/
theorem pool_single (r : ℚ) : selectPool [⟨3, some 2⟩] 2 r = [⟨3, some 2⟩] := by
  have hc : current_range [⟨3, some 2⟩] 2 = [⟨3, some 2⟩] := by
    norm_num [current_range, filter_words_by_difficulty, word_difficulty, List.filter]
  have hh : higher_range [⟨3, some 2⟩] 2 = [] := by
    norm_num [higher_range, filter_words_by_difficulty, word_difficulty, List.filter]
  have hl : lower_range [⟨3, some 2⟩] 2 = [] := by
    norm_num [lower_range, filter_words_by_difficulty, word_difficulty, List.filter]
  unfold selectPool
  rw [hc, hh, hl]
  split_ifs <;> simp_all

/-- Selecting from the singleton catalog of the scenario always yields its
one word. -/
theorem sel_single (r : ℚ) (j : Nat) :
    select_word_by_difficulty_distribution [⟨3, some 2⟩] 2 r j = .ok ⟨3, some 2⟩ := by
  unfold select_word_by_difficulty_distribution
  rw [pool_single]
  simp [Nat.mod_one]

/-- The end-to-end scenario: catalogs with ids 1, 2, 3 at difficulty 2.0 and
used-sets [1, 2] select item 3 with no reset, for every random draw. -/
theorem select_scenario_three (rv ra : ℚ) (jv ja : Nat) :
    select_daily_words threeWords threeWords (.doc usedTwoHistory) rv ra jv ja =
      .ok (⟨3, some 2⟩, ⟨3, some 2⟩, false, false, .doc usedTwoHistory) := by
  have hu : get_unused_words threeWords [1, 2] = [⟨3, some 2⟩] := by decide
  unfold select_daily_words
  simp only [load_history_for_selection, read_json_hist, usedTwoHistory, mkHistory]
  simp only [hu]
  simp [resolve_unused, sel_single]

/-- C5: for every catalog and history state a selected item's id is not in
that catalog's used-set at entry unless that catalog was reset in the same
call; and the concrete three-item scenario (ids 1,2,3 at difficulty 2.0,
used=[1,2], difficulty 2.0) returns item 3 with resetOccurred = false. -/
theorem selection_avoids_used_ids :
    (∀ (v a : List Word) (file : FileState) (rv ra : ℚ) (jv ja : Nat)
       (vb ad : Word) (vr ar : Bool) (f₁ : FileState),
       select_daily_words v a file rv ra jv ja = .ok (vb, ad, vr, ar, f₁) →
       (vr = false → vb.id ∉ used_at_entry_verbs file) ∧
       (ar = false → ad.id ∉ used_at_entry_adjectives file)) ∧
    (∀ (rv ra : ℚ) (jv ja : Nat),
       select_daily_words threeWords threeWords (.doc usedTwoHistory) rv ra jv ja =
         .ok (⟨3, some 2⟩, ⟨3, some 2⟩, false, false, .doc usedTwoHistory)) :=
  ⟨fun _ _ _ _ _ _ _ _ _ _ _ _ h => select_daily_avoids_used h, select_scenario_three⟩

/-- Witness for C5 at the concrete scenario input. -/
theorem selection_avoids_used_ids_wit :
    (⟨3, some 2⟩ : Word).id ∉ used_at_entry_verbs (.doc usedTwoHistory) :=
  (selection_avoids_used_ids.1 threeWords threeWords (.doc usedTwoHistory)
      0 0 0 0 ⟨3, some 2⟩ ⟨3, some 2⟩ false false (.doc usedTwoHistory)
      (select_scenario_three 0 0 0 0)).1 rfl

/-- C2 (amended): on delivery failure the orchestrator never calls
update_history — the run exits 1 with the file exactly as selection left it —
and when no reset occurred during selection that file equals the file at
entry.  (When a catalog was exhausted, the reset was already persisted during
selection and survives the failed delivery.) -/
theorem delivery_failure_no_history_write :
    (∀ (v a : List Word) (file : FileState) (rv ra : ℚ) (jv ja : Nat) (date : String)
       (vb ad : Word) (vr ar : Bool) (f₁ : FileState),
       select_daily_words v a file rv ra jv ja = .ok (vb, ad, vr, ar, f₁) →
       main_send_cycle v a file rv ra jv ja false date = .ok (f₁, 1)) ∧
    (∀ (v a : List Word) (file : FileState) (rv ra : ℚ) (jv ja : Nat)
       (vb ad : Word) (f₁ : FileState),
       select_daily_words v a file rv ra jv ja = .ok (vb, ad, false, false, f₁) →
       f₁ = file) :=
  ⟨fun _ _ _ _ _ _ _ _ _ _ _ _ _ h => main_cycle_failure_any h,
   fun _ _ _ _ _ _ _ _ _ _ h => select_daily_no_reset_no_write h⟩

/-- Counterexample for C2 as stated: with verb catalog [1] fully used, a run
whose delivery fails still ends with a history file that differs from the one
at entry, because the verb reset was persisted during selection. -/
theorem delivery_failure_reset_persisted_cex :
    select_daily_words [⟨1, some 2⟩] [⟨2, some 2⟩]
        (.doc { mkHistory 2 with used_verbs := [1] }) 0 0 0 0 =
      .ok (⟨1, some 2⟩, ⟨2, some 2⟩, true, false, .doc (mkHistory 2)) ∧
    main_send_cycle [⟨1, some 2⟩] [⟨2, some 2⟩]
        (.doc { mkHistory 2 with used_verbs := [1] }) 0 0 0 0 false "d" =
      .ok (.doc (mkHistory 2), 1) ∧
    FileState.doc (mkHistory 2) ≠ .doc { mkHistory 2 with used_verbs := [1] } := by
  refine ⟨?_, ?_, by simp [mkHistory]⟩
  · norm_num [select_daily_words, load_history_for_selection, read_json_hist, mkHistory,
      get_unused_words, List.filter, resolve_unused, reset_used_words,
      select_word_by_difficulty_distribution, selectPool, current_range, higher_range,
      lower_range, filter_words_by_difficulty, word_difficulty]
  · norm_num [main_send_cycle, select_daily_words, load_history_for_selection,
      read_json_hist, mkHistory, get_unused_words, List.filter, resolve_unused,
      reset_used_words, select_word_by_difficulty_distribution, selectPool,
      current_range, higher_range, lower_range, filter_words_by_difficulty,
      word_difficulty, get_difficulty_level]

/-- Witness for C2 at a concrete no-reset run. -/
theorem delivery_failure_no_history_write_wit :
    main_send_cycle [⟨7, some 2⟩] [⟨7, some 2⟩] (.doc (mkHistory 2)) 0 0 0 0 false "d" =
      .ok (.doc (mkHistory 2), 1) := by
  apply delivery_failure_no_history_write.1 _ _ _ _ _ _ _ _ ⟨7, some 2⟩ ⟨7, some 2⟩
    false false _
  norm_num [select_daily_words, load_history_for_selection, read_json_hist, mkHistory,
    get_unused_words, List.filter, resolve_unused, select_word_by_difficulty_distribution,
    selectPool, current_range, higher_range, lower_range, filter_words_by_difficulty,
    word_difficulty]

/-- Claim C1 (amended): a uniform draw r selects the current band for
r < 0.70, the higher band for 0.70 <= r < 0.90 and the lower band for
0.90 <= r < 1.00, each only if non-empty; but when the band chosen by r is
empty the if/elif chain falls through to the next bands in the order
higher-then-lower, and the uniform fallback over all unused items happens
only when every band reachable from r onward is empty. -/
theorem selectPool_band_cascade (words : List Word) (d r : ℚ) :
    (r < 7/10 → current_range words d ≠ [] → selectPool words d r = current_range words d) ∧
    (7/10 ≤ r → r < 9/10 → higher_range words d ≠ [] →
      selectPool words d r = higher_range words d) ∧
    (9/10 ≤ r → r < 1 → lower_range words d ≠ [] →
      selectPool words d r = lower_range words d) ∧
    (r < 7/10 → current_range words d = [] →
      selectPool words d r =
        if higher_range words d ≠ [] then higher_range words d
        else if lower_range words d ≠ [] then lower_range words d
        else words) ∧
    (7/10 ≤ r → r < 9/10 → higher_range words d = [] →
      selectPool words d r =
        if lower_range words d ≠ [] then lower_range words d else words) ∧
    (9/10 ≤ r → r < 1 → lower_range words d = [] → selectPool words d r = words) := by
  refine ⟨?_, ?_, ?_, ?_, ?_, ?_⟩
  · intro h1 h2
    unfold selectPool
    rw [if_pos ⟨h1, h2⟩]
  · intro h1 h2 h3
    unfold selectPool
    rw [if_neg (fun hc => (not_lt.mpr h1) hc.1), if_pos ⟨h2, h3⟩]
  · intro h1 h2 h3
    unfold selectPool
    rw [if_neg (fun hc => (not_lt.mpr (by linarith)) hc.1),
      if_neg (fun hc => (not_lt.mpr (by linarith)) hc.1), if_pos ⟨h2, h3⟩]
  · intro h1 h2
    unfold selectPool
    rw [if_neg (fun hc => hc.2 h2)]
    by_cases hh : higher_range words d ≠ []
    · rw [if_pos ⟨by linarith, hh⟩, if_pos hh]
    · rw [if_neg (fun hc => hh hc.2), if_neg hh]
      by_cases hl : lower_range words d ≠ []
      · rw [if_pos ⟨by linarith, hl⟩, if_pos hl]
      · rw [if_neg (fun hc => hl hc.2), if_neg hl]
  · intro h1 h2 h3
    unfold selectPool
    rw [if_neg (fun hc => (not_lt.mpr h1) hc.1), if_neg (fun hc => hc.2 h3)]
    by_cases hl : lower_range words d ≠ []
    · rw [if_pos ⟨by linarith, hl⟩, if_pos hl]
    · rw [if_neg (fun hc => hl hc.2), if_neg hl]
  · intro h1 h2 h3
    unfold selectPool
    rw [if_neg (fun hc => (not_lt.mpr (by linarith)) hc.1),
      if_neg (fun hc => (not_lt.mpr (by linarith)) hc.1), if_neg (fun hc => hc.2 h3)]

/-- Counterexample to claim C1 as stated: with the current band empty and the
higher band not, a draw r = 0.3 yields the higher band, not a uniform choice
over all unused items. -/
theorem selectPool_cascade_cex :
    current_range [⟨1, some 3⟩, ⟨2, some (9/2)⟩] 2 = [] ∧
    ((3:ℚ)/10) < 7/10 ∧
    selectPool [⟨1, some 3⟩, ⟨2, some (9/2)⟩] 2 (3/10) = [⟨1, some 3⟩] ∧
    selectPool [⟨1, some 3⟩, ⟨2, some (9/2)⟩] 2 (3/10) ≠ [⟨1, some 3⟩, ⟨2, some (9/2)⟩] := by
  have h : selectPool [⟨1, some 3⟩, ⟨2, some (9/2)⟩] 2 (3/10) = [⟨1, some 3⟩] := by
    norm_num [selectPool, current_range, higher_range, lower_range,
      filter_words_by_difficulty, word_difficulty, List.filter]
  refine ⟨?_, by norm_num, h, by rw [h]; simp⟩
  norm_num [current_range, filter_words_by_difficulty, word_difficulty, List.filter]

/-- Witness for C1 at the counterexample input. -/
theorem selectPool_band_cascade_wit :
    selectPool [⟨1, some 3⟩, ⟨2, some (9/2)⟩] 2 (3/10) =
      (if higher_range [⟨1, some 3⟩, ⟨2, some (9/2)⟩] 2 ≠ [] then
        higher_range [⟨1, some 3⟩, ⟨2, some (9/2)⟩] 2
      else if lower_range [⟨1, some 3⟩, ⟨2, some (9/2)⟩] 2 ≠ [] then
        lower_range [⟨1, some 3⟩, ⟨2, some (9/2)⟩] 2
      else [⟨1, some 3⟩, ⟨2, some (9/2)⟩]) :=
  (selectPool_band_cascade [⟨1, some 3⟩, ⟨2, some (9/2)⟩] 2 (3/10)).2.2.2.1 (by norm_num)
    (by norm_num [current_range, filter_words_by_difficulty, word_difficulty, List.filter])

/-- Claim C3 (amended): an easy (+0.5) then hard (-0.5) feedback round trip
returns the difficulty to its starting value d exactly when d <= 4.5; for
4.5 < d <= 5.0 the upper clamp absorbs the overshoot and the round trip ends
at 4.5 instead. -/
theorem easy_then_hard_roundtrip (d : ℚ) (h1 : 1 ≤ d) :
    (d ≤ 9/2 → easyThenHard d = .ok d) ∧
    (9/2 < d → d ≤ 5 → easyThenHard d = .ok (9/2)) := by
  constructor
  · intro h2
    have e1 : max 1 (min 5 (d + 1/2)) = d + 1/2 := by
      rw [min_eq_right (by linarith), max_eq_right (by linarith)]
    simp only [easyThenHard, update_difficulty_preference, read_json_hist, mkHistory, e1]
    have e2 : d + 1/2 + -(1/2) = d := by ring
    rw [e2, min_eq_right (by linarith), max_eq_right (by linarith)]
  · intro h2 h3
    have e1 : max 1 (min 5 (d + 1/2)) = 5 := by
      rw [min_eq_left (by linarith), max_eq_right (by linarith)]
    simp only [easyThenHard, update_difficulty_preference, read_json_hist, mkHistory, e1]
    norm_num

/-- Counterexample to claim C3 as stated: starting at 4.8 (inside [1, 5]),
easy then hard ends at 4.5, not 4.8. -/
theorem easy_then_hard_roundtrip_cex :
    (1:ℚ) ≤ 24/5 ∧ (24:ℚ)/5 ≤ 5 ∧ easyThenHard (24/5) = .ok (9/2) ∧ (9:ℚ)/2 ≠ 24/5 := by
  refine ⟨by norm_num, by norm_num, ?_, by norm_num⟩
  norm_num [easyThenHard, update_difficulty_preference, mkHistory, read_json_hist]

/-- Witness for C3 at the interior point d = 2. -/
theorem easy_then_hard_roundtrip_wit :
    (1:ℚ) ≤ 2 ∧ (2:ℚ) ≤ 9/2 ∧ easyThenHard 2 = .ok 2 :=
  ⟨by norm_num, by norm_num, (easy_then_hard_roundtrip 2 (by norm_num)).1 (by norm_num)⟩

/-- Claim C7: for every prior difficulty and adjustment, applying feedback
persists a difficulty equal to clamp(d + a, 1.0, 5.0) and appends exactly one
adjustment-log entry carrying the old level, the new level and the
timestamp; the feedback-check timestamp is refreshed as well. -/
theorem update_difficulty_clamp_and_log (h : History) (feedback : String) (adjustment : ℚ)
    (date now : String) :
    update_difficulty_preference (.doc h) feedback adjustment date now =
      .ok (.doc { h with
        difficulty_adjustments := h.difficulty_adjustments ++
          [⟨date, feedback, h.current_difficulty_level,
            min 5 (max 1 (h.current_difficulty_level + adjustment))⟩],
        current_difficulty_level := min 5 (max 1 (h.current_difficulty_level + adjustment)),
        last_feedback_check := some now },
        min 5 (max 1 (h.current_difficulty_level + adjustment))) := by
  have hc : max 1 (min 5 (h.current_difficulty_level + adjustment)) =
      min 5 (max 1 (h.current_difficulty_level + adjustment)) := by
    rw [max_min_distrib_left]
    norm_num
  simp only [update_difficulty_preference, read_json_hist, hc]

/-- Claim C10: an item lacking a difficulty field is treated as difficulty
exactly 2.0 by band partitioning: it lands in a band precisely when 2.0 lies
inside that band's clipped window, for every target difficulty and
tolerance. -/
theorem filter_missing_difficulty_default (words : List Word) (w : Word) (t tol : ℚ)
    (hw : w ∈ words) (hd : w.difficulty = none) :
    (w ∈ filter_words_by_difficulty words t tol ↔
      (max 1 (t - tol) ≤ 2 ∧ (2:ℚ) ≤ min 5 (t + tol))) := by
  simp [filter_words_by_difficulty, List.mem_filter, hw, word_difficulty, hd]

/-- Witness for C10 at a concrete one-item catalog. -/
theorem filter_missing_difficulty_default_wit :
    ((⟨1, none⟩ : Word) ∈ filter_words_by_difficulty [⟨1, none⟩] 2 (1/2) ↔
      (max 1 ((2:ℚ) - 1/2) ≤ 2 ∧ (2:ℚ) ≤ min 5 (2 + 1/2))) :=
  filter_missing_difficulty_default [⟨1, none⟩] ⟨1, none⟩ 2 (1/2) (by simp) rfl

/-- Appending a fresh element preserves distinctness. -/
theorem nodup_append_single {l : List Nat} {x : Nat} (hl : l.Nodup) (hx : x ∉ l) :
    (l ++ [x]).Nodup := by
  simp [List.nodup_append, hl, hx]

/-- Claim C9: update_history keeps the used-ID lists duplicate-free —
recording a successful send whose verb or adjective id is already present
leaves that list unchanged — while the send log is still appended and the
success counter still incremented. -/
theorem update_history_nodup_preserved (h : History) (vid aid : Nat) (dl : ℚ)
    (date : String) (hv : h.used_verbs.Nodup) (ha : h.used_adjectives.Nodup) :
    update_history (.doc h) vid aid true dl date =
      .ok (.doc (history_after_update (.doc h) vid aid true dl date)) ∧
    (history_after_update (.doc h) vid aid true dl date).used_verbs.Nodup ∧
    (history_after_update (.doc h) vid aid true dl date).used_adjectives.Nodup ∧
    (vid ∈ h.used_verbs →
      (history_after_update (.doc h) vid aid true dl date).used_verbs = h.used_verbs) ∧
    (aid ∈ h.used_adjectives →
      (history_after_update (.doc h) vid aid true dl date).used_adjectives =
        h.used_adjectives) ∧
    (history_after_update (.doc h) vid aid true dl date).sent_emails =
      h.sent_emails ++ [⟨date, vid, aid, true, dl⟩] ∧
    (history_after_update (.doc h) vid aid true dl date).total_emails_sent =
      h.total_emails_sent + 1 := by
  have hrun : update_history (.doc h) vid aid true dl date =
      .ok (.doc (history_after_update (.doc h) vid aid true dl date)) := by
    simp only [history_after_update, update_history, read_json_hist]
  refine ⟨hrun, ?_, ?_, ?_, ?_, ?_, ?_⟩ <;>
    simp only [history_after_update, update_history, read_json_hist] <;>
    rw [if_pos trivial]
  · dsimp only
    split_ifs with hmem
    · exact hv
    · exact nodup_append_single hv hmem
  · dsimp only
    split_ifs with hmem
    · exact ha
    · exact nodup_append_single ha hmem
  · intro hmem
    dsimp only
    rw [if_pos hmem]
  · intro hmem
    dsimp only
    rw [if_pos hmem]

/-- Witness for C9 on the empty starting history. -/
theorem update_history_nodup_preserved_wit :
    update_history (.doc (mkHistory 2)) 4 5 true 2 "d" =
      .ok (.doc (history_after_update (.doc (mkHistory 2)) 4 5 true 2 "d")) ∧
    (history_after_update (.doc (mkHistory 2)) 4 5 true 2 "d").used_verbs.Nodup :=
  have h := update_history_nodup_preserved (mkHistory 2) 4 5 2 "d"
    (by simp [mkHistory]) (by simp [mkHistory])
  ⟨h.1, h.2.1⟩

/-- Claim C8: for every history state and difficulty, selection over an
entirely empty catalog raises (ValueError, the NoCandidatesError of the
design) instead of returning an item, both at the single-draw level and for
a whole select_daily_words run. -/
theorem empty_catalog_select_fails :
    (∀ (d r : ℚ) (j : Nat),
      select_word_by_difficulty_distribution [] d r j =
        .error (.valueError "No words available to select from")) ∧
    (∀ (file : FileState) (rv ra : ℚ) (jv ja : Nat),
      exceptIsError (select_daily_words [] [] file rv ra jv ja) = true) := by
  constructor
  · intro d r j
    rfl
  · intro file rv ra jv ja
    cases file <;> rfl

/-- Claim C4 (amended): inside the feedback-check cycle every raised error —
including a corrupt history document — is caught by check_for_feedback's
catch-all handler and converted into the not-found triple with the file left
as it was, rather than surfaced; on the selection path a corrupt document
does propagate as an error, and only a missing file is silently replaced by
the default state (empty used sets, difficulty 2.0). -/
theorem feedback_errors_swallowed :
    (∀ (file : FileState) (body : Option String) (date now : String) (e : PyError),
      check_for_feedback_core file body date now = .error e →
      check_for_feedback file body date now = (false, none, none, file)) ∧
    (∀ (v a : List Word) (rv ra : ℚ) (jv ja : Nat),
      select_daily_words v a .corrupt rv ra jv ja = .error .jsonDecode) ∧
    load_history_for_selection .absent = .ok ([], [], 2) ∧
    load_history_for_selection .corrupt = .error .jsonDecode := by
  refine ⟨?_, ?_, rfl, rfl⟩
  · intro file body date now e h
    unfold check_for_feedback
    rw [h]
  · intro v a rv ra jv ja
    rfl

/-- Counterexample to claim C4 as stated: a corrupt history document during a
feedback-check cycle raises internally, yet check_for_feedback returns the
same not-found triple as a run with no reply at all. -/
theorem feedback_corrupt_history_cex :
    check_for_feedback_core FileState.corrupt (some "This was too hard for me") "d" "t" =
      .error .jsonDecode ∧
    check_for_feedback FileState.corrupt (some "This was too hard for me") "d" "t" =
      (false, none, none, .corrupt) ∧
    check_for_feedback FileState.corrupt none "d" "t" = (false, none, none, .corrupt) := by
  have hp : parse_feedback_from_text "This was too hard for me" = some "hard" := by decide
  have hcore : check_for_feedback_core FileState.corrupt
      (some "This was too hard for me") "d" "t" = .error .jsonDecode := by
    have hl : FEEDBACK_KEYWORDS.lookup "hard" = some (-(1/2)) := rfl
    simp [check_for_feedback_core, hp, hl, update_difficulty_preference, read_json_hist]
  refine ⟨hcore, ?_, rfl⟩
  unfold check_for_feedback
  rw [hcore]

/-- Witness for C4 with a missing history file and an easy reply. -/
theorem feedback_errors_swallowed_wit :
    check_for_feedback FileState.absent (some "easy") "d" "t" =
      (false, none, none, .absent) := by
  apply feedback_errors_swallowed.1 _ _ _ _ PyError.fileNotFound
  have hp : parse_feedback_from_text "easy" = some "easy" := by decide
  have hl : FEEDBACK_KEYWORDS.lookup "easy" = some (1/2) := rfl
  simp [check_for_feedback_core, hp, hl, update_difficulty_preference, read_json_hist]

/-- List.find? returns the first element satisfying the predicate: an index
witness whose predecessors all fail the predicate. -/
theorem find_first_spec {α : Type} (p : α → Bool) (l : List α) (a : α)
    (h : l.find? p = some a) :
    ∃ n, ∃ hn : n < l.length, l.get ⟨n, hn⟩ = a ∧ p a = true ∧
      ∀ m, ∀ hm : m < n, p (l.get ⟨m, Nat.lt_trans hm hn⟩) = false := by
  induction l with
  | nil => simp at h
  | cons x xs ih =>
    by_cases hp : p x
    · rw [List.find?_cons_of_pos _ hp] at h
      obtain rfl : x = a := by simpa using h
      exact ⟨0, by simp, rfl, hp, fun m hm => absurd hm (Nat.not_lt_zero m)⟩
    · rw [List.find?_cons_of_neg _ (by simpa using hp)] at h
      obtain ⟨n, hn, hget, hpa, hprev⟩ := ih h
      refine ⟨n + 1, Nat.succ_lt_succ hn, ?_, hpa, ?_⟩
      · simpa using hget
      · intro m hm
        cases m with
        | zero => simpa using hp
        | succ k =>
          have := hprev k (Nat.lt_of_succ_lt_succ hm)
          simpa using this

/-- Claim C6: keyword matching is case-insensitive and word-boundary-safe —
any parsed keyword really occurs with regex word boundaries in the lowercased
text — and the first matching keyword in the fixed list order wins; in
particular "that was uneasy" matches nothing while "too easy!" matches the
easy-family keyword "easy" despite the trailing punctuation. -/
theorem parse_feedback_boundary_first_match :
    (∀ (t k : String), parse_feedback_from_text t = some k →
      reSearch k.toList (t.toList.map Char.toLower) = true ∧
      ∃ n, ∃ hn : n < FEEDBACK_KEYS.length,
        FEEDBACK_KEYS.get ⟨n, hn⟩ = k ∧
        ∀ m, ∀ hm : m < n,
          reSearch (FEEDBACK_KEYS.get ⟨m, Nat.lt_trans hm hn⟩).toList
            (t.toList.map Char.toLower) = false) ∧
    parse_feedback_from_text "that was uneasy" = none ∧
    parse_feedback_from_text "too easy!" = some "easy" ∧
    FEEDBACK_KEYWORDS.lookup "easy" = some (1/2) := by
  refine ⟨?_, by decide, by decide, rfl⟩
  intro t k h
  unfold parse_feedback_from_text at h
  obtain ⟨n, hn, hget, hpa, hprev⟩ := find_first_spec _ _ _ h
  exact ⟨hpa, n, hn, hget, fun m hm => hprev m hm⟩

/-- Witness for C6 at the punctuation example. -/
theorem parse_feedback_boundary_first_match_wit :
    reSearch "easy".toList ("too easy!".toList.map Char.toLower) = true :=
  (parse_feedback_boundary_first_match.1 "too easy!" "easy" (by decide)).1
